import Mathlib

/-!
# The hook command of gastown (`internal/cmd/hook.go`)

A shallow embedding of `runHook` and `checkPinnedBeadComplete`.

The command talks to its surroundings through a handful of calls (the process
environment, the bead store, the `bd` executable, standard output).  Every such
call is an oracle field of `World`; `runHook` is then a total function from a
world, the command-line flags and the positional argument to an `Outcome`
holding the returned error, the read calls made, the mutation calls issued and
the lines printed, each in program order.
-/

namespace Gastown

/-! ## Data model -/

/-- Go `error` values.  `errorf` is an error built from a message alone,
`wrapf pre cause` is `fmt.Errorf(pre + "%w", cause)`. -/
inductive GoError where
  | errorf (msg : String)
  | wrapf (pre : String) (cause : GoError)
  deriving DecidableEq, Repr

/-- The method `Error()`: the message of an error; a wrapping error prints its
own text followed by the message of its cause. -/
def GoError.Error : GoError → String
  | .errorf msg => msg
  | .wrapf pre cause => pre ++ cause.Error

/-- The function `errors.Unwrap`: the cause of a wrapping error. -/
def GoError.Unwrap : GoError → Option GoError
  | .errorf _ => none
  | .wrapf _ cause => some cause

/-- The fields of `beads.Issue` the command reads, and `Description`, which
stands for the text an attachment is parsed from. -/
structure Issue where
  ID : String
  Title : String
  Status : String
  Assignee : String
  Description : String
  deriving DecidableEq, Repr

/-- The result of `beads.ParseAttachmentFields`, when it is not nil. -/
structure AttachmentFields where
  AttachedMolecule : String
  deriving DecidableEq, Repr

/-- The result of `getMoleculeProgressInfo`, when it is not nil. -/
structure MoleculeProgress where
  Complete : Bool
  deriving DecidableEq, Repr

/-- The handle `beads.New(workDir)`. -/
structure Beads where
  workDir : String
  deriving DecidableEq, Repr

/-- The constructor `beads.New`. -/
def Beads.New (workDir : String) : Beads := ⟨workDir⟩

/-- The filter `beads.ListOptions` as the command fills it. -/
structure ListOptions where
  Status : String
  Assignee : String
  Priority : Int
  deriving DecidableEq, Repr

/-- The record `beads.UpdateOptions`; `Status` is a pointer, nil when unset. -/
structure UpdateOptions where
  Status : Option String
  deriving DecidableEq, Repr

/-- Modelled from the spec: the constant `beads.StatusPinned`, the reserved
status `pinned` that marks the hook occupant. -/
def StatusPinned : String := "pinned"

/-- The package-level flag variables `hookSubject`, `hookMessage`,
`hookDryRun`, `hookForce`. -/
structure Flags where
  hookSubject : String
  hookMessage : String
  hookDryRun : Bool
  hookForce : Bool
  deriving DecidableEq, Repr

/-! ## Effects -/

/-- A mutation call issued by the command. -/
inductive Call where
  /-- The command `bd close <id> --force --reason=<reason>` (lines 112-115). -/
  | bdClose (id : String) (reason : String)
  /-- The call `b.Update(id, opts)` (lines 121 and 132). -/
  | bUpdate (id : String) (opts : UpdateOptions)
  /-- The command `bd update <id> --status=<status> --assignee=<assignee>`
  (lines 157-159). -/
  | bdUpdate (id : String) (status : String) (assignee : String)
  deriving DecidableEq, Repr

/-- The argument vector handed to `exec.Command` for the two calls that run
`bd`; `b.Update` is a library call and has none. -/
def Call.argv : Call → List String
  | .bdClose id reason => ["bd", "close", id, "--force", "--reason=" ++ reason]
  | .bUpdate _ _ => []
  | .bdUpdate id status assignee =>
      ["bd", "update", id, "--status=" ++ status, "--assignee=" ++ assignee]

/-- A read call made by the command. -/
inductive Query where
  | verifyBeadExists (beadID : String)
  | resolveSelfTarget
  | findLocalBeadsDir
  | List (b : Beads) (opts : ListOptions)
  | checkPinnedBeadComplete (b : Beads) (issue : Issue)
  deriving DecidableEq, Repr

/-- A line written to standard output, one constructor per `fmt.Printf`. -/
inductive Out where
  | alreadyHooked (beadID : String)
  | replacingCompleted (id : String)
  | forceReplacing (id : String)
  | hooking (beadID : String)
  | wouldRun (beadID : String) (agentID : String)
  | subject (s : String)
  | context (m : String)
  | attached
  | useHandoff
  | useMolStatus
  deriving DecidableEq, Repr

/-- The surroundings of one invocation: each field answers one external call.
`getMoleculeProgressInfo` returns the Go pair `(progress, err)`, either of
which may be nil. -/
structure World where
  getenv : String → String
  verifyBeadExists : String → Option GoError
  resolveSelfTarget : Except GoError String
  findLocalBeadsDir : Except GoError String
  ParseAttachmentFields : Issue → Option AttachmentFields
  getMoleculeProgressInfo : Beads → String → Option MoleculeProgress × Option GoError
  Update : Beads → String → UpdateOptions → Option GoError
  Run : List String → Option GoError
  Bold : String → String
  Dim : String → String
  List : Beads → ListOptions → Except GoError (List Issue)

/-- The text of an output line. -/
def Out.text (w : World) : Out → String
  | .alreadyHooked beadID => w.Bold "✓" ++ " Already hooked: " ++ beadID ++ "\n"
  | .replacingCompleted id => w.Dim "ℹ" ++ " Replacing completed bead " ++ id ++ "...\n"
  | .forceReplacing id => w.Dim "⚠" ++ " Force-replacing incomplete bead " ++ id ++ "...\n"
  | .hooking beadID => w.Bold "🪝" ++ " Hooking " ++ beadID ++ "...\n"
  | .wouldRun beadID agentID =>
      "Would run: bd update " ++ beadID ++ " --status=pinned --assignee=" ++ agentID ++ "\n"
  | .subject s => "  subject (for handoff mail): " ++ s ++ "\n"
  | .context m => "  context (for handoff mail): " ++ m ++ "\n"
  | .attached => w.Bold "✓" ++ " Work attached to hook (pinned bead)\n"
  | .useHandoff => "  Use \x27gt handoff\x27 to restart with this work\n"
  | .useMolStatus => "  Use \x27gt mol status\x27 to see hook status\n"

/-- What one invocation of the command did: the error returned (`none` is
nil, success), and the read calls, mutation calls and output lines in program
order.  A mutation call is in `trace` as soon as it is issued, whether the
store accepts it or not. -/
structure Outcome where
  err : Option GoError
  queries : List Query
  trace : List Call
  out : List Out
  deriving DecidableEq, Repr

/-! ## The program -/

/-- The function `checkPinnedBeadComplete` (lines 174-195): returns
`(isComplete, hasAttachment)`. -/
def checkPinnedBeadComplete (w : World) (b : Beads) (issue : Issue) : Bool × Bool :=
  match w.ParseAttachmentFields issue with
  | none => (true, false)
  | some attachment =>
    if attachment.AttachedMolecule = "" then
      (true, false)
    else
      match w.getMoleculeProgressInfo b attachment.AttachedMolecule with
      | (_, some _) => (false, true)
      | (none, none) => (true, true)
      | (some progress, none) => (progress.Complete, true)

/-- The error returned when an incomplete pinned bead blocks the request
(lines 138-139). -/
def conflictError (existing : Issue) : GoError :=
  .errorf ("existing pinned bead " ++ existing.ID ++ " is incomplete (" ++ existing.Title
    ++ ")\n  Use --force to replace, or complete the existing work first")

/-- Lines 143-167 of `runHook`: announce the hook, then either report the pin
(dry run) or run it.  `q`, `tr` and `out` are the calls and lines so far. -/
def runHookPin (w : World) (fl : Flags) (beadID agentID : String)
    (q : List Query) (tr : List Call) (out : List Out) : Outcome :=
  let out := out ++ [Out.hooking beadID]
  if fl.hookDryRun then
    { err := none, queries := q, trace := tr,
      out := out ++ [Out.wouldRun beadID agentID]
        ++ (if fl.hookSubject ≠ "" then [Out.subject fl.hookSubject] else [])
        ++ (if fl.hookMessage ≠ "" then [Out.context fl.hookMessage] else []) }
  else
    let pinCmd := Call.bdUpdate beadID "pinned" agentID
    match w.Run pinCmd.argv with
    | some err =>
      { err := some (.wrapf "pinning bead: " err), queries := q, trace := tr ++ [pinCmd],
        out := out }
    | none =>
      { err := none, queries := q, trace := tr ++ [pinCmd],
        out := out ++ [Out.attached, Out.useHandoff, Out.useMolStatus] }

/-- The function `runHook` (lines 56-168); `beadID` is `args[0]`. -/
def runHook (w : World) (fl : Flags) (beadID : String) : Outcome :=
  if w.getenv "GT_POLECAT" ≠ "" then
    { err := some (.errorf "polecats cannot hook work (use gt done for handoff)"),
      queries := [], trace := [], out := [] }
  else
  match w.verifyBeadExists beadID with
  | some err =>
    { err := some err, queries := [.verifyBeadExists beadID], trace := [], out := [] }
  | none =>
  match w.resolveSelfTarget with
  | .error err =>
    { err := some (.wrapf "detecting agent identity: " err),
      queries := [.verifyBeadExists beadID, .resolveSelfTarget], trace := [], out := [] }
  | .ok agentID =>
  match w.findLocalBeadsDir with
  | .error err =>
    { err := some (.wrapf "not in a beads workspace: " err),
      queries := [.verifyBeadExists beadID, .resolveSelfTarget, .findLocalBeadsDir],
      trace := [], out := [] }
  | .ok workDir =>
  let b := Beads.New workDir
  let opts : ListOptions := { Status := StatusPinned, Assignee := agentID, Priority := -1 }
  let q : List Query :=
    [.verifyBeadExists beadID, .resolveSelfTarget, .findLocalBeadsDir, .List b opts]
  match w.List b opts with
  | .error err =>
    { err := some (.wrapf "checking existing pinned beads: " err),
      queries := q, trace := [], out := [] }
  | .ok [] => runHookPin w fl beadID agentID q [] []
  | .ok (existing :: _) =>
    if existing.ID = beadID then
      { err := none, queries := q, trace := [], out := [.alreadyHooked beadID] }
    else
      let isComplete := (checkPinnedBeadComplete w b existing).1
      let hasAttachment := (checkPinnedBeadComplete w b existing).2
      let q := q ++ [.checkPinnedBeadComplete b existing]
      if isComplete then
        let out := [Out.replacingCompleted existing.ID]
        if !fl.hookDryRun then
          if hasAttachment then
            let closeCmd :=
              Call.bdClose existing.ID "Auto-replaced by gt hook (molecule complete)"
            match w.Run closeCmd.argv with
            | some err =>
              { err := some (.wrapf ("closing completed bead " ++ existing.ID ++ ": ") err),
                queries := q, trace := [closeCmd], out := out }
            | none => runHookPin w fl beadID agentID q [closeCmd] out
          else
            let status := "open"
            match w.Update b existing.ID { Status := some status } with
            | some err =>
              { err := some (.wrapf ("unpinning bead " ++ existing.ID ++ ": ") err),
                queries := q, trace := [.bUpdate existing.ID { Status := some status }],
                out := out }
            | none =>
              runHookPin w fl beadID agentID q
                [.bUpdate existing.ID { Status := some status }] out
        else runHookPin w fl beadID agentID q [] out
      else if fl.hookForce then
        let out := [Out.forceReplacing existing.ID]
        if !fl.hookDryRun then
          let status := "open"
          match w.Update b existing.ID { Status := some status } with
          | some err =>
            { err := some (.wrapf ("unpinning bead " ++ existing.ID ++ ": ") err),
              queries := q, trace := [.bUpdate existing.ID { Status := some status }],
              out := out }
          | none =>
            runHookPin w fl beadID agentID q
              [.bUpdate existing.ID { Status := some status }] out
        else runHookPin w fl beadID agentID q [] out
      else
        { err := some (conflictError existing), queries := q, trace := [], out := [] }

/-! ## The bead store -/

/-- Modelled from the spec: the state of the external bead store, which is the
list of the beads it holds. -/
abbrev Store := List Issue

/-- Modelled from the spec: the answer of the bead query `b.List` with a status
and an assignee filter: the beads of the store that match both, in store
order. -/
def Store.list (st : Store) (opts : ListOptions) : List Issue :=
  st.filter fun i => i.Status == opts.Status && i.Assignee == opts.Assignee

/-- Modelled from the spec: the effect of an accepted mutation call on the
store.  A close sets the status of the bead to closed, `b.Update` sets the
status it names, and `bd update` sets the status and the assignee. -/
def Store.apply (st : Store) : Call → Store
  | .bdClose id _ =>
      st.map fun i => if i.ID = id then { i with Status := "closed" } else i
  | .bUpdate id opts =>
      st.map fun i => if i.ID = id then { i with Status := opts.Status.getD i.Status } else i
  | .bdUpdate id status assignee =>
      st.map fun i => if i.ID = id then { i with Status := status, Assignee := assignee } else i

/-- The store after a list of accepted mutation calls, applied in order.  A
run that returns success had every call it issued accepted, so this is the
store such a run leaves behind. -/
def Store.run (st : Store) (trace : List Call) : Store :=
  trace.foldl Store.apply st

/-- The number of beads in status pinned with `agentID` as assignee. -/
def Store.pinnedTo (st : Store) (agentID : String) : Nat :=
  (st.list { Status := StatusPinned, Assignee := agentID, Priority := -1 }).length

/-- Modelled from the spec: a world whose bead queries are answered from the
store `st`: a bead exists when its ID is in the store, and the pinned query
filters the store.  The other oracles are those of `base`. -/
def World.onStore (base : World) (st : Store) : World :=
  { base with
    verifyBeadExists := fun id =>
      if id ∈ st.map (fun i => i.ID) then none
      else some (.errorf ("bead " ++ id ++ " not found"))
    List := fun _ opts => .ok (st.list opts) }

/-- A bead of the sample store. -/
def bead (id status assignee : String) : Issue :=
  { ID := id, Title := "", Status := status, Assignee := assignee, Description := "" }

/-! ## Vocabulary of the statements -/

/-- The run gets as far as line 94: the agent-class gate lets it through, the
bead exists, the identity resolves to `agentID`, the beads directory is
`workDir`, and the query for beads pinned to the agent answers
`existingPinned`. -/
def ReachesList (w : World) (beadID agentID workDir : String)
    (existingPinned : List Issue) : Prop :=
  w.getenv "GT_POLECAT" = "" ∧ w.verifyBeadExists beadID = none ∧
  w.resolveSelfTarget = .ok agentID ∧ w.findLocalBeadsDir = .ok workDir ∧
  w.List (Beads.New workDir)
    { Status := StatusPinned, Assignee := agentID, Priority := -1 } = .ok existingPinned

/-- The text `s` occurs in the message `msg`. -/
def Mentions (msg s : String) : Prop := s.data <:+: msg.data

/-- Every mutation call is accepted by the store. -/
def StoreAccepts (w : World) : Prop :=
  (∀ argv, w.Run argv = none) ∧ (∀ b id opts, w.Update b id opts = none)

/-- A world for examples: an eligible agent `gastown/crew/max` in the workspace
`/work/.beads`, every bead exists and every mutation is accepted; the pinned
list, the parsed attachment and the progress answer are given. -/
def sampleWorld (pinned : List Issue) (att : Option AttachmentFields)
    (prog : Option MoleculeProgress × Option GoError) : World where
  getenv := fun _ => ""
  verifyBeadExists := fun _ => none
  resolveSelfTarget := .ok "gastown/crew/max"
  findLocalBeadsDir := .ok "/work/.beads"
  ParseAttachmentFields := fun _ => att
  getMoleculeProgressInfo := fun _ _ => prog
  Update := fun _ _ _ => none
  Run := fun _ => none
  Bold := fun s => s
  Dim := fun s => s
  List := fun _ _ => .ok pinned

/-- A sample world whose store rejects every mutation with `cause`. -/
def rejectingWorld (pinned : List Issue) (att : Option AttachmentFields)
    (prog : Option MoleculeProgress × Option GoError) (cause : GoError) : World :=
  { sampleWorld pinned att prog with
    Update := fun _ _ _ => some cause
    Run := fun _ => some cause }

/-- A bead pinned to the sample agent. -/
def pinnedBead (id title : String) : Issue :=
  { ID := id, Title := title, Status := "pinned", Assignee := "gastown/crew/max",
    Description := "" }

/-- Flags with no subject and no message. -/
def plainFlags (dryRun force : Bool) : Flags :=
  { hookSubject := "", hookMessage := "", hookDryRun := dryRun, hookForce := force }

/-- A call that clears the hook occupant `id`: a close of that bead, or an
update of that bead to another status than pinned. -/
def Call.Clears (id : String) : Call → Prop
  | .bdClose id1 _ => id1 = id
  | .bUpdate id1 opts => id1 = id ∧ ∃ s, opts.Status = some s ∧ s ≠ StatusPinned
  | .bdUpdate _ _ _ => False

/-- The output line announces an action on the store: the two replacement
notices and the `Would run:` line do, the other lines do not. -/
def Out.isAnnouncement : Out → Bool
  | .replacingCompleted _ => true
  | .forceReplacing _ => true
  | .wouldRun _ _ => true
  | _ => false

/-- The mutation call `c` is what the output line announces.  The notice that
a completed bead is replaced names the bead and stands for its close with the
auto-replacement reason or for its update to status open (the line does not
say which); the notice of a forced replacement stands for the update of the
bead it names to status open; the `Would run:` line stands for the pin it
spells out. -/
def Out.Announces : Out → Call → Prop
  | .replacingCompleted id, c =>
      c = Call.bdClose id "Auto-replaced by gt hook (molecule complete)" ∨
      c = Call.bUpdate id { Status := some "open" }
  | .forceReplacing id, c => c = Call.bUpdate id { Status := some "open" }
  | .wouldRun beadID agentID, c => c = Call.bdUpdate beadID "pinned" agentID
  | _, _ => False

/-- A store with one finished occupant `gt-004` and the open bead `gt-005`. -/
def oneOccupantStore : Store :=
  [bead "gt-004" "pinned" "gastown/crew/max", bead "gt-005" "open" ""]

/-- A store in which two beads are pinned to the sample agent. -/
def twoOccupantStore : Store :=
  [bead "gt-001" "pinned" "gastown/crew/max", bead "gt-002" "pinned" "gastown/crew/max",
   bead "gt-003" "open" ""]

/-- A sample world in which the process runs as the polecat `nux`. -/
def polecatWorld : World :=
  { sampleWorld [] none (none, none) with
    getenv := fun key => if key = "GT_POLECAT" then "nux" else "" }

/-- The same world, except that the answer to the pinned query is cut down to
its first entry. -/
def World.firstOnly (w : World) : World :=
  { w with
    List := fun b opts =>
      match w.List b opts with
      | .ok existingPinned => .ok (existingPinned.take 1)
      | .error err => .error err }

/-- The call is the `bd update` command that pins a bead. -/
def Call.isPin : Call → Bool
  | .bdUpdate _ _ _ => true
  | _ => false

/-! ## Helper lemmas -/

theorem mentions_mid (a s b : String) : Mentions (a ++ s ++ b) s :=
  ⟨a.data, b.data, by simp⟩

theorem mentions_append_right {msg s : String} (t : String) (h : Mentions msg s) :
    Mentions (msg ++ t) s := by
  obtain ⟨p, q, hpq⟩ := h
  exact ⟨p, q ++ t.data, by simp [← hpq]⟩

theorem mentions_append_left {msg s : String} (t : String) (h : Mentions msg s) :
    Mentions (t ++ msg) s := by
  obtain ⟨p, q, hpq⟩ := h
  exact ⟨t.data ++ p, q, by simp [← hpq]⟩

theorem conflictError_mentions_ID (existing : Issue) :
    Mentions (conflictError existing).Error existing.ID := by
  simp only [conflictError, GoError.Error]
  exact mentions_append_right _ (mentions_append_right _ (mentions_mid _ _ _))

theorem conflictError_mentions_Title (existing : Issue) :
    Mentions (conflictError existing).Error existing.Title := by
  simp only [conflictError, GoError.Error]
  exact mentions_mid _ _ _

theorem pinnedTo_apply_pin (st : Store) (beadID agentID : String)
    (hnodup : (st.map fun i => i.ID).Nodup) (hmem : beadID ∈ st.map fun i => i.ID)
    (hfree : ∀ i ∈ st, i.Status = StatusPinned → i.Assignee = agentID → i.ID = beadID) :
    (st.apply (.bdUpdate beadID "pinned" agentID)).pinnedTo agentID = 1 := by
  have hcount : List.count beadID (st.map fun i => i.ID) = 1 :=
    List.count_eq_one_of_mem hnodup hmem
  rw [List.count, List.countP_map] at hcount
  rw [← hcount]
  simp only [Store.pinnedTo, Store.list, Store.apply, ← List.countP_eq_length_filter,
    List.countP_map]
  apply List.countP_congr
  intro i hi
  by_cases h : i.ID = beadID
  · simp [h, StatusPinned]
  · have := hfree i hi
    simp [h]
    intro h1 h2
    exact h (this h1 h2)

theorem apply_ids (st : Store) (c : Call) :
    (st.apply c).map (fun i => i.ID) = st.map fun i => i.ID := by
  cases c <;> simp only [Store.apply, List.map_map] <;> apply List.map_congr_left <;>
    intro i _ <;> simp only [Function.comp] <;> split <;> simp_all

theorem apply_clear_free (st : Store) (c : Call) (e : Issue) (agentID : String)
    (hc : c.Clears e.ID)
    (hsole : ∀ j ∈ st, j.Status = StatusPinned → j.Assignee = agentID → j = e) :
    ∀ i ∈ st.apply c, i.Status = StatusPinned → i.Assignee = agentID → False := by
  intro i hi hs ha
  cases c with
  | bdClose id1 r =>
    simp only [Call.Clears] at hc
    simp only [Store.apply, List.mem_map] at hi
    obtain ⟨j, hj, rfl⟩ := hi
    by_cases h : j.ID = id1
    · simp [h, StatusPinned] at hs
    · simp only [h, if_false] at hs ha
      exact h (by rw [hsole j hj hs ha, hc])
  | bUpdate id1 opts =>
    obtain ⟨hc1, s, hs1, hs2⟩ := hc
    simp only [Store.apply, List.mem_map] at hi
    obtain ⟨j, hj, rfl⟩ := hi
    by_cases h : j.ID = id1
    · simp [h, hs1] at hs
      exact hs2 hs
    · simp only [h, if_false] at hs ha
      exact h (by rw [hsole j hj hs ha, hc1])
  | bdUpdate _ _ _ => exact hc.elim

theorem list_sole (st : Store) (opts : ListOptions) (e : Issue) (h : st.list opts = [e]) :
    ∀ j ∈ st, j.Status = opts.Status → j.Assignee = opts.Assignee → j = e := by
  intro j hj hs ha
  have : j ∈ st.list opts := by
    simp [Store.list, List.mem_filter, hj, hs, ha]
  rw [h] at this
  simpa using this

theorem list_none (st : Store) (opts : ListOptions) (h : st.list opts = []) :
    ∀ j ∈ st, j.Status = opts.Status → j.Assignee = opts.Assignee → False := by
  intro j hj hs ha
  have : j ∈ st.list opts := by
    simp [Store.list, List.mem_filter, hj, hs, ha]
  rw [h] at this
  simp at this

theorem pinnedTo_clear_then_pin (st : Store) (c : Call) (e : Issue) (beadID agentID : String)
    (hnodup : (st.map fun i => i.ID).Nodup) (hmem : beadID ∈ st.map fun i => i.ID)
    (hc : c.Clears e.ID)
    (hsole : ∀ j ∈ st, j.Status = StatusPinned → j.Assignee = agentID → j = e) :
    (Store.run st [c, .bdUpdate beadID "pinned" agentID]).pinnedTo agentID = 1 := by
  simp only [Store.run, List.foldl]
  apply pinnedTo_apply_pin
  · rw [apply_ids]; exact hnodup
  · rw [apply_ids]; exact hmem
  · intro i hi hs ha
    exact (apply_clear_free st c e agentID hc hsole i hi hs ha).elim

theorem wrapf_mentions (a s b : String) (cause : GoError) :
    Mentions (GoError.wrapf (a ++ s ++ b) cause).Error s := by
  simp only [GoError.Error]
  exact mentions_append_right _ (mentions_mid _ _ _)

/-- The tail of `runHook` issues no call of its own under dry-run. -/
theorem runHookPin_dry_trace (w : World) (fl : Flags) (beadID agentID : String)
    (q : List Query) (tr : List Call) (out : List Out) (hdry : fl.hookDryRun = true) :
    (runHookPin w fl beadID agentID q tr out).trace = tr := by
  simp [runHookPin, hdry]

/-- The tail of `runHook` makes no read call of its own. -/
theorem runHookPin_queries (w : World) (fl : Flags) (beadID agentID : String)
    (q : List Query) (tr : List Call) (out : List Out) :
    (runHookPin w fl beadID agentID q tr out).queries = q := by
  simp only [runHookPin]
  repeat' split
  all_goals rfl

/-- Cutting the pinned list down to its first entry changes nothing in what
`runHook` returns, calls or prints. -/
theorem runHook_firstOnly (w : World) (fl : Flags) (beadID : String) :
    runHook w.firstOnly fl beadID = runHook w fl beadID := by
  by_cases hpol : w.getenv "GT_POLECAT" = ""
  swap
  · simp [runHook, World.firstOnly, hpol]
  cases hver : w.verifyBeadExists beadID with
  | some err => simp [runHook, World.firstOnly, hpol, hver]
  | none =>
  cases hid : w.resolveSelfTarget with
  | error err => simp [runHook, World.firstOnly, hpol, hver, hid]
  | ok agentID =>
  cases hdir : w.findLocalBeadsDir with
  | error err => simp [runHook, World.firstOnly, hpol, hver, hid, hdir]
  | ok workDir =>
  cases hlist : w.List (Beads.New workDir)
      { Status := StatusPinned, Assignee := agentID, Priority := -1 } with
  | error err => simp [runHook, World.firstOnly, hpol, hver, hid, hdir, hlist]
  | ok existingPinned =>
  cases existingPinned with
  | nil => simp [runHook, runHookPin, World.firstOnly, hpol, hver, hid, hdir, hlist]
  | cons existing rest =>
    simp [runHook, runHookPin, World.firstOnly, hpol, hver, hid, hdir, hlist,
      checkPinnedBeadComplete]

theorem reachesList_firstOnly {w : World} {beadID agentID workDir : String}
    {existing : Issue} {rest : List Issue}
    (h : ReachesList w beadID agentID workDir (existing :: rest)) :
    ReachesList w.firstOnly beadID agentID workDir [existing] := by
  obtain ⟨hpol, hver, hid, hdir, hlist⟩ := h
  exact ⟨hpol, hver, hid, hdir, by simp [World.firstOnly, hlist]⟩

/-- The shapes the mutation trace of `runHook` can take: empty; the pin alone,
when nothing is pinned; or one clearing call on the first pinned entry,
followed by the pin unless the clearing call failed. -/
theorem runHook_trace_cases (w : World) (fl : Flags) (beadID : String) :
    (runHook w fl beadID).trace = [] ∨
    (∃ agentID workDir, ReachesList w beadID agentID workDir [] ∧
      (runHook w fl beadID).trace = [Call.bdUpdate beadID "pinned" agentID]) ∨
    (∃ agentID workDir existing rest c,
      ReachesList w beadID agentID workDir (existing :: rest) ∧ existing.ID ≠ beadID ∧
      (c = Call.bdClose existing.ID "Auto-replaced by gt hook (molecule complete)" ∨
        c = Call.bUpdate existing.ID { Status := some "open" }) ∧
      ((runHook w fl beadID).trace = [c] ∨
        (runHook w fl beadID).trace = [c, Call.bdUpdate beadID "pinned" agentID])) := by
  by_cases hpol : w.getenv "GT_POLECAT" = ""
  swap
  · simp [runHook, hpol]
  cases hver : w.verifyBeadExists beadID with
  | some err => simp [runHook, hpol, hver]
  | none =>
  cases hid : w.resolveSelfTarget with
  | error err => simp [runHook, hpol, hver, hid]
  | ok agentID =>
  cases hdir : w.findLocalBeadsDir with
  | error err => simp [runHook, hpol, hver, hid, hdir]
  | ok workDir =>
  cases hlist : w.List (Beads.New workDir)
      { Status := StatusPinned, Assignee := agentID, Priority := -1 } with
  | error err => simp [runHook, hpol, hver, hid, hdir, hlist]
  | ok existingPinned =>
  cases existingPinned with
  | nil =>
    have hreach : ReachesList w beadID agentID workDir [] := ⟨hpol, hver, hid, hdir, hlist⟩
    cases hd : fl.hookDryRun
    · refine Or.inr (Or.inl ⟨agentID, workDir, hreach, ?_⟩)
      cases hr : w.Run (Call.bdUpdate beadID "pinned" agentID).argv <;>
      simp [runHook, runHookPin, hpol, hver, hid, hdir, hlist, hd, hr]
    · exact Or.inl (by simp [runHook, runHookPin, hpol, hver, hid, hdir, hlist, hd])
  | cons existing rest =>
    have hreach : ReachesList w beadID agentID workDir (existing :: rest) :=
      ⟨hpol, hver, hid, hdir, hlist⟩
    by_cases hsame : existing.ID = beadID
    · exact Or.inl (by simp [runHook, hpol, hver, hid, hdir, hlist, hsame])
    cases hd : fl.hookDryRun
    swap
    · refine Or.inl ?_
      unfold runHook
      simp only [hd]
      repeat' split
      all_goals simp_all [runHookPin_dry_trace]
    cases hc : (checkPinnedBeadComplete w (Beads.New workDir) existing).1
    · cases hf : fl.hookForce
      · exact Or.inl (by simp [runHook, hpol, hver, hid, hdir, hlist, hsame, hc, hf])
      · refine Or.inr (Or.inr ⟨agentID, workDir, existing, rest,
          Call.bUpdate existing.ID { Status := some "open" }, hreach, hsame, Or.inr rfl, ?_⟩)
        cases hu : w.Update (Beads.New workDir) existing.ID { Status := some "open" }
        · cases hr : w.Run (Call.bdUpdate beadID "pinned" agentID).argv <;>
          simp [runHook, runHookPin, hpol, hver, hid, hdir, hlist, hsame, hc, hf, hd, hu, hr]
        · simp [runHook, hpol, hver, hid, hdir, hlist, hsame, hc, hf, hd, hu]
    · cases ha : (checkPinnedBeadComplete w (Beads.New workDir) existing).2
      · refine Or.inr (Or.inr ⟨agentID, workDir, existing, rest,
          Call.bUpdate existing.ID { Status := some "open" }, hreach, hsame, Or.inr rfl, ?_⟩)
        cases hu : w.Update (Beads.New workDir) existing.ID { Status := some "open" }
        · cases hr : w.Run (Call.bdUpdate beadID "pinned" agentID).argv <;>
          simp [runHook, runHookPin, hpol, hver, hid, hdir, hlist, hsame, hc, ha, hd, hu, hr]
        · simp [runHook, hpol, hver, hid, hdir, hlist, hsame, hc, ha, hd, hu]
      · refine Or.inr (Or.inr ⟨agentID, workDir, existing, rest,
          Call.bdClose existing.ID "Auto-replaced by gt hook (molecule complete)", hreach,
          hsame, Or.inl rfl, ?_⟩)
        cases hu : w.Run
          (Call.bdClose existing.ID "Auto-replaced by gt hook (molecule complete)").argv
        · cases hr : w.Run (Call.bdUpdate beadID "pinned" agentID).argv <;>
          simp [runHook, runHookPin, hpol, hver, hid, hdir, hlist, hsame, hc, ha, hd, hu, hr]
        · simp [runHook, hpol, hver, hid, hdir, hlist, hsame, hc, ha, hd, hu]
theorem pinnedTo_apply_clear (st : Store) (c : Call) (e : Issue) (agentID : String)
    (hc : c.Clears e.ID)
    (hsole : ∀ j ∈ st, j.Status = StatusPinned → j.Assignee = agentID → j = e) :
    (st.apply c).pinnedTo agentID = 0 := by
  simp only [Store.pinnedTo, Store.list, List.length_eq_zero, List.filter_eq_nil_iff]
  intro i hi
  have := apply_clear_free st c e agentID hc hsole i hi
  simp only [Bool.and_eq_true, beq_iff_eq, not_and]
  intro hs ha
  exact this hs ha

theorem prefix_pair {c d : Call} {p : List Call} (h : p <+: [c, d]) :
    p = [] ∨ p = [c] ∨ p = [c, d] := by
  match p, h with
  | [], _ => exact Or.inl rfl
  | [x], h =>
    have := List.cons_prefix_cons.1 h
    exact Or.inr (Or.inl (by rw [this.1]))
  | [x, y], h =>
    have h1 := List.cons_prefix_cons.1 h
    have h2 := List.cons_prefix_cons.1 h1.2
    exact Or.inr (Or.inr (by rw [h1.1, h2.1]))
  | x :: y :: z :: t, h =>
    have := h.length_le
    simp at this

theorem prefix_single {c : Call} {p : List Call} (h : p <+: [c]) : p = [] ∨ p = [c] := by
  match p, h with
  | [], _ => exact Or.inl rfl
  | [x], h =>
    have := List.cons_prefix_cons.1 h
    exact Or.inr (by rw [this.1])
  | x :: y :: t, h =>
    have := h.length_le
    simp at this

/-- Under dry-run the tail of `runHook` returns success. -/
theorem runHookPin_dry_err (w : World) (fl : Flags) (beadID agentID : String)
    (q : List Query) (tr : List Call) (out : List Out) (hdry : fl.hookDryRun = true) :
    (runHookPin w fl beadID agentID q tr out).err = none := by
  simp [runHookPin, hdry]

/-- Under dry-run the tail of `runHook` adds one announcement, the `Would run:`
line. -/
theorem runHookPin_dry_announce (w : World) (fl : Flags) (beadID agentID : String)
    (q : List Query) (tr : List Call) (out : List Out) (hdry : fl.hookDryRun = true) :
    (runHookPin w fl beadID agentID q tr out).out.filter Out.isAnnouncement =
      out.filter Out.isAnnouncement ++ [Out.wouldRun beadID agentID] := by
  by_cases hs : fl.hookSubject = "" <;> by_cases hm : fl.hookMessage = "" <;>
    simp [runHookPin, hdry, hs, hm, List.filter_cons, Out.isAnnouncement]

/-- With dry-run off and the pin accepted, the tail of `runHook` issues the pin
and returns success. -/
theorem runHookPin_real (w : World) (fl : Flags) (beadID agentID : String)
    (q : List Query) (tr : List Call) (out : List Out) (hdry : fl.hookDryRun = false)
    (hrun : ∀ argv, w.Run argv = none) :
    (runHookPin w fl beadID agentID q tr out).trace =
      tr ++ [Call.bdUpdate beadID "pinned" agentID] ∧
    (runHookPin w fl beadID agentID q tr out).err = none := by
  simp [runHookPin, hdry, hrun]

/-! ## Claims -/

/-- C1 (Block): when the list of beads pinned to the agent is non-empty, its
first entry has another ID than the requested one, that entry is classified
incomplete and the force flag is off, `runHook` returns the conflict error,
whose message contains the existing bead's ID and its title, and issues no
mutation call; the dry-run flag is left arbitrary. -/
theorem block_returns_conflict (w : World) (fl : Flags)
    (beadID agentID workDir : String) (existing : Issue) (rest : List Issue)
    (hreach : ReachesList w beadID agentID workDir (existing :: rest))
    (hne : existing.ID ≠ beadID)
    (hinc : (checkPinnedBeadComplete w (Beads.New workDir) existing).1 = false)
    (hforce : fl.hookForce = false) :
    ∃ e, (runHook w fl beadID).err = some e ∧ Mentions e.Error existing.ID ∧
      Mentions e.Error existing.Title ∧ (runHook w fl beadID).trace = [] := by
  obtain ⟨hpol, hver, hid, hdir, hlist⟩ := hreach
  refine ⟨conflictError existing, ?_, conflictError_mentions_ID existing,
    conflictError_mentions_Title existing, ?_⟩ <;>
  simp [runHook, hpol, hver, hid, hdir, hlist, hne, hinc, hforce]

/-- Witness for C1: `gt-006` is pinned with molecule `mol-2` in progress, and
`gt-007` is requested without force. -/
theorem block_returns_conflict_witness :
    ∃ e, (runHook (sampleWorld [pinnedBead "gt-006" "Fix parser"] (some ⟨"mol-2"⟩)
        (some ⟨false⟩, none)) (plainFlags false false) "gt-007").err = some e ∧
      Mentions e.Error "gt-006" ∧ Mentions e.Error "Fix parser" ∧
      (runHook (sampleWorld [pinnedBead "gt-006" "Fix parser"] (some ⟨"mol-2"⟩)
        (some ⟨false⟩, none)) (plainFlags false false) "gt-007").trace = [] :=
  block_returns_conflict
    (sampleWorld [pinnedBead "gt-006" "Fix parser"] (some ⟨"mol-2"⟩) (some ⟨false⟩, none))
    (plainFlags false false) "gt-007" "gastown/crew/max" "/work/.beads"
    (pinnedBead "gt-006" "Fix parser") [] ⟨rfl, rfl, rfl, rfl, rfl⟩ (by decide) (by decide) rfl

/-- C2 (Force overrides block): when the first pinned entry has another ID
than the requested one and is classified incomplete, `runHook` with the force
flag on never returns a conflict error; with dry-run off and a store that
accepts every call it returns success after issuing exactly the update of the
existing bead to status open and then the pin of the requested bead with
status pinned and the agent as assignee, and so no close call. -/
theorem force_overrides_block (w : World) (fl : Flags)
    (beadID agentID workDir : String) (existing : Issue) (rest : List Issue)
    (hreach : ReachesList w beadID agentID workDir (existing :: rest))
    (hne : existing.ID ≠ beadID)
    (hinc : (checkPinnedBeadComplete w (Beads.New workDir) existing).1 = false)
    (hforce : fl.hookForce = true) :
    (∀ i, (runHook w fl beadID).err ≠ some (conflictError i)) ∧
    (fl.hookDryRun = false → StoreAccepts w →
      (runHook w fl beadID).err = none ∧
      (runHook w fl beadID).trace =
        [Call.bUpdate existing.ID { Status := some "open" },
         Call.bdUpdate beadID "pinned" agentID] ∧
      ∀ id reason, Call.bdClose id reason ∉ (runHook w fl beadID).trace) := by
  obtain ⟨hpol, hver, hid, hdir, hlist⟩ := hreach
  refine ⟨fun i => ?_, fun hdry hacc => ?_⟩
  · cases hd : fl.hookDryRun
    · cases hu : w.Update (Beads.New workDir) existing.ID { Status := some "open" } with
      | some cause =>
        simp [runHook, hpol, hver, hid, hdir, hlist, hne, hinc, hforce, hd, hu, conflictError]
      | none =>
        cases hr : w.Run (Call.bdUpdate beadID "pinned" agentID).argv <;>
        simp [runHook, runHookPin, hpol, hver, hid, hdir, hlist, hne, hinc, hforce, hd, hu,
          hr, conflictError]
    · simp [runHook, runHookPin, hpol, hver, hid, hdir, hlist, hne, hinc, hforce, hd]
  · simp [runHook, runHookPin, hpol, hver, hid, hdir, hlist, hne, hinc, hforce, hdry,
      hacc.1, hacc.2]

/-- Witness for C2: `gt-006` is pinned with molecule `mol-2` in progress, and
`gt-007` is requested with force. -/
theorem force_overrides_block_witness :
    (runHook (sampleWorld [pinnedBead "gt-006" "Fix parser"] (some ⟨"mol-2"⟩)
        (some ⟨false⟩, none)) (plainFlags false true) "gt-007").err = none ∧
    (runHook (sampleWorld [pinnedBead "gt-006" "Fix parser"] (some ⟨"mol-2"⟩)
        (some ⟨false⟩, none)) (plainFlags false true) "gt-007").trace =
      [Call.bUpdate "gt-006" { Status := some "open" },
       Call.bdUpdate "gt-007" "pinned" "gastown/crew/max"] :=
  have h := (force_overrides_block
    (sampleWorld [pinnedBead "gt-006" "Fix parser"] (some ⟨"mol-2"⟩) (some ⟨false⟩, none))
    (plainFlags false true) "gt-007" "gastown/crew/max" "/work/.beads"
    (pinnedBead "gt-006" "Fix parser") [] ⟨rfl, rfl, rfl, rfl, rfl⟩ (by decide) (by decide)
    rfl).2 rfl ⟨fun _ => rfl, fun _ _ _ => rfl⟩
  ⟨h.1, h.2.1⟩

/-- C3 (Fail-closed classification): when the parsed attachment names a
non-empty molecule and the progress lookup returns an error, whatever progress
value comes with it, `checkPinnedBeadComplete` returns isComplete = false and
hasAttachment = true. -/
theorem checkPinnedBeadComplete_fail_closed (w : World) (b : Beads) (issue : Issue)
    (attachment : AttachmentFields) (progress : Option MoleculeProgress) (err : GoError)
    (hparse : w.ParseAttachmentFields issue = some attachment)
    (hmol : attachment.AttachedMolecule ≠ "")
    (hprog : w.getMoleculeProgressInfo b attachment.AttachedMolecule = (progress, some err)) :
    checkPinnedBeadComplete w b issue = (false, true) := by
  simp [checkPinnedBeadComplete, hparse, hmol, hprog]

/-- Witness for C3: the lookup for `mol-2` fails while also handing back a
progress record that says complete. -/
theorem checkPinnedBeadComplete_fail_closed_witness :
    checkPinnedBeadComplete
      (sampleWorld [] (some ⟨"mol-2"⟩) (some ⟨true⟩, some (.errorf "bd: timeout")))
      (Beads.New "/work/.beads") (pinnedBead "gt-006" "Fix parser") = (false, true) :=
  checkPinnedBeadComplete_fail_closed
    (sampleWorld [] (some ⟨"mol-2"⟩) (some ⟨true⟩, some (.errorf "bd: timeout")))
    (Beads.New "/work/.beads") (pinnedBead "gt-006" "Fix parser") ⟨"mol-2"⟩ (some ⟨true⟩)
    (.errorf "bd: timeout") rfl (by decide) rfl

/-- C4 (Abort on failed clear): with dry-run off, when the first pinned entry
has another ID than the requested one and is to be replaced (it is classified
complete, or force is on), and the clearing call the command issues on it (the
close when it is complete with an attachment, the update to status open
otherwise) fails with `cause`, then `runHook` returns an error that wraps
`cause` and whose message contains the existing bead's ID, and no pin call is
in the mutation trace. -/
theorem abort_on_failed_clear (w : World) (fl : Flags)
    (beadID agentID workDir : String) (existing : Issue) (rest : List Issue)
    (cause : GoError)
    (hreach : ReachesList w beadID agentID workDir (existing :: rest))
    (hne : existing.ID ≠ beadID)
    (hdry : fl.hookDryRun = false)
    (hrepl : (checkPinnedBeadComplete w (Beads.New workDir) existing).1 = true ∨
      fl.hookForce = true)
    (hfail :
      (if (checkPinnedBeadComplete w (Beads.New workDir) existing).1 = true ∧
          (checkPinnedBeadComplete w (Beads.New workDir) existing).2 = true then
        w.Run (Call.bdClose existing.ID "Auto-replaced by gt hook (molecule complete)").argv
      else
        w.Update (Beads.New workDir) existing.ID { Status := some "open" }) = some cause) :
    ∃ e, (runHook w fl beadID).err = some e ∧ e.Unwrap = some cause ∧
      Mentions e.Error existing.ID ∧
      ∀ id status assignee, Call.bdUpdate id status assignee ∉ (runHook w fl beadID).trace := by
  obtain ⟨hpol, hver, hid, hdir, hlist⟩ := hreach
  cases hc : (checkPinnedBeadComplete w (Beads.New workDir) existing).1
  · have hforce : fl.hookForce = true := by simpa [hc] using hrepl
    simp only [hc, Bool.false_eq_true, false_and, if_false] at hfail
    refine ⟨.wrapf ("unpinning bead " ++ existing.ID ++ ": ") cause, ?_, rfl,
      wrapf_mentions _ _ _ _, ?_⟩ <;>
    simp [runHook, hpol, hver, hid, hdir, hlist, hne, hdry, hc, hforce, hfail]
  · cases ha : (checkPinnedBeadComplete w (Beads.New workDir) existing).2
    · simp only [hc, ha, Bool.false_eq_true, and_false, if_false] at hfail
      refine ⟨.wrapf ("unpinning bead " ++ existing.ID ++ ": ") cause, ?_, rfl,
        wrapf_mentions _ _ _ _, ?_⟩ <;>
      simp [runHook, hpol, hver, hid, hdir, hlist, hne, hdry, hc, ha, hfail]
    · simp only [hc, ha, and_self, if_true] at hfail
      refine ⟨.wrapf ("closing completed bead " ++ existing.ID ++ ": ") cause, ?_, rfl,
        wrapf_mentions _ _ _ _, ?_⟩ <;>
      simp [runHook, hpol, hver, hid, hdir, hlist, hne, hdry, hc, ha, hfail]

/-- Witness for C4: `gt-004` is pinned with the finished molecule `mol-1`, and
the store rejects the close with `bd: database is locked`. -/
theorem abort_on_failed_clear_witness :
    ∃ e, (runHook (rejectingWorld [pinnedBead "gt-004" "Ship it"] (some ⟨"mol-1"⟩)
        (some ⟨true⟩, none) (.errorf "bd: database is locked"))
        (plainFlags false false) "gt-005").err = some e ∧
      e.Unwrap = some (.errorf "bd: database is locked") ∧ Mentions e.Error "gt-004" ∧
      ∀ id status assignee, Call.bdUpdate id status assignee ∉
        (runHook (rejectingWorld [pinnedBead "gt-004" "Ship it"] (some ⟨"mol-1"⟩)
          (some ⟨true⟩, none) (.errorf "bd: database is locked"))
          (plainFlags false false) "gt-005").trace :=
  abort_on_failed_clear
    (rejectingWorld [pinnedBead "gt-004" "Ship it"] (some ⟨"mol-1"⟩) (some ⟨true⟩, none)
      (.errorf "bd: database is locked"))
    (plainFlags false false) "gt-005" "gastown/crew/max" "/work/.beads"
    (pinnedBead "gt-004" "Ship it") [] (.errorf "bd: database is locked")
    ⟨rfl, rfl, rfl, rfl, rfl⟩ (by decide) rfl (Or.inl (by decide)) (by decide)

/-- C5, counterexample: single occupancy after success fails as stated.  A dry
run against a store with no occupant succeeds and leaves no bead pinned to the
agent; and a real run against a store with two beads pinned to the agent
succeeds and leaves two beads pinned to the agent. -/
theorem single_occupancy_counterexample :
    ((runHook ((sampleWorld [] none (none, none)).onStore [bead "gt-001" "open" ""])
        (plainFlags true false) "gt-001").err = none ∧
      (Store.run [bead "gt-001" "open" ""]
        (runHook ((sampleWorld [] none (none, none)).onStore [bead "gt-001" "open" ""])
          (plainFlags true false) "gt-001").trace).pinnedTo "gastown/crew/max" = 0) ∧
    ((runHook ((sampleWorld [] none (none, none)).onStore twoOccupantStore)
        (plainFlags false false) "gt-003").err = none ∧
      (Store.run twoOccupantStore
        (runHook ((sampleWorld [] none (none, none)).onStore twoOccupantStore)
          (plainFlags false false) "gt-003").trace).pinnedTo "gastown/crew/max" = 2) := by
  decide

/-- C5, amended (Single-occupancy): for every store whose bead IDs are unique
and in which at most one bead is pinned to the agent, and every requested ID
and force flag, if `runHook` with dry-run off returns success then in the
resulting store exactly one bead has status pinned with the agent as
assignee. -/
theorem single_occupancy (base : World) (st : Store) (fl : Flags) (beadID agentID : String)
    (hid : base.resolveSelfTarget = .ok agentID)
    (hnodup : (st.map fun i => i.ID).Nodup)
    (hone : st.pinnedTo agentID ≤ 1)
    (hdry : fl.hookDryRun = false)
    (hok : (runHook (base.onStore st) fl beadID).err = none) :
    (Store.run st (runHook (base.onStore st) fl beadID).trace).pinnedTo agentID = 1 := by
  have hid1 : (base.onStore st).resolveSelfTarget = .ok agentID := hid
  by_cases hpol : (base.onStore st).getenv "GT_POLECAT" = ""
  swap
  · simp [runHook, hpol] at hok
  cases hver : (base.onStore st).verifyBeadExists beadID with
  | some err => simp [runHook, hpol, hver] at hok
  | none =>
  have hmem : beadID ∈ st.map fun i => i.ID := by
    simp only [World.onStore] at hver
    by_contra hcon
    rw [if_neg hcon] at hver
    cases hver
  cases hdir : (base.onStore st).findLocalBeadsDir with
  | error err => simp [runHook, hpol, hver, hid1, hdir] at hok
  | ok workDir =>
  have hlist : ∀ b opts, (base.onStore st).List b opts = .ok (st.list opts) := fun _ _ => rfl
  cases hl : st.list { Status := StatusPinned, Assignee := agentID, Priority := -1 } with
  | nil =>
    cases hr : (base.onStore st).Run (Call.bdUpdate beadID "pinned" agentID).argv with
    | some err =>
      simp [runHook, runHookPin, hpol, hver, hid1, hdir, hlist, hl, hdry, hr] at hok
    | none =>
      have htr : (runHook (base.onStore st) fl beadID).trace =
          [Call.bdUpdate beadID "pinned" agentID] := by
        simp [runHook, runHookPin, hpol, hver, hid1, hdir, hlist, hl, hdry, hr]
      rw [htr]
      simp only [Store.run, List.foldl]
      exact pinnedTo_apply_pin st beadID agentID hnodup hmem
        (fun i hi hs ha => (list_none st _ hl i hi hs ha).elim)
  | cons e rest =>
    have hrest : rest = [] := by
      have : (e :: rest).length ≤ 1 := by rw [← hl]; exact hone
      cases rest with
      | nil => rfl
      | cons _ _ => simp at this
    subst hrest
    have hsole := list_sole st _ e hl
    by_cases hsame : e.ID = beadID
    · have htr : (runHook (base.onStore st) fl beadID).trace = [] := by
        simp [runHook, hpol, hver, hid1, hdir, hlist, hl, hsame]
      rw [htr]
      simp [Store.run, Store.pinnedTo, hl]
    · have hpin : ∀ c : Call, c.Clears e.ID →
          (runHook (base.onStore st) fl beadID).trace =
            [c, Call.bdUpdate beadID "pinned" agentID] →
          (Store.run st (runHook (base.onStore st) fl beadID).trace).pinnedTo agentID = 1 := by
        intro c hc htr
        rw [htr]
        exact pinnedTo_clear_then_pin st c e beadID agentID hnodup hmem hc hsole
      cases hr : (base.onStore st).Run (Call.bdUpdate beadID "pinned" agentID).argv with
      | some err =>
        simp only [runHook, runHookPin, hpol, hver, hid1, hdir, hlist, hl, hdry, hr,
          hsame] at hok
        revert hok
        simp
        repeat' split
        all_goals simp_all
      | none =>
      cases hc : (checkPinnedBeadComplete (base.onStore st) (Beads.New workDir) e).1
      · cases hf : fl.hookForce
        · simp [runHook, hpol, hver, hid1, hdir, hlist, hl, hsame, hc, hf] at hok
        · cases hu : (base.onStore st).Update (Beads.New workDir) e.ID
              { Status := some "open" } with
          | some err =>
            simp [runHook, hpol, hver, hid1, hdir, hlist, hl, hsame, hc, hf, hdry, hu] at hok
          | none =>
            apply hpin (Call.bUpdate e.ID { Status := some "open" })
            · exact ⟨rfl, "open", rfl, by decide⟩
            · simp [runHook, runHookPin, hpol, hver, hid1, hdir, hlist, hl, hsame, hc, hf,
                hdry, hu, hr]
      · cases ha : (checkPinnedBeadComplete (base.onStore st) (Beads.New workDir) e).2
        · cases hu : (base.onStore st).Update (Beads.New workDir) e.ID
              { Status := some "open" } with
          | some err =>
            simp [runHook, hpol, hver, hid1, hdir, hlist, hl, hsame, hc, ha, hdry, hu] at hok
          | none =>
            apply hpin (Call.bUpdate e.ID { Status := some "open" })
            · exact ⟨rfl, "open", rfl, by decide⟩
            · simp [runHook, runHookPin, hpol, hver, hid1, hdir, hlist, hl, hsame, hc, ha,
                hdry, hu, hr]
        · cases hu : (base.onStore st).Run
              (Call.bdClose e.ID "Auto-replaced by gt hook (molecule complete)").argv with
          | some err =>
            simp [runHook, hpol, hver, hid1, hdir, hlist, hl, hsame, hc, ha, hdry, hu] at hok
          | none =>
            apply hpin (Call.bdClose e.ID "Auto-replaced by gt hook (molecule complete)")
            · exact rfl
            · simp [runHook, runHookPin, hpol, hver, hid1, hdir, hlist, hl, hsame, hc, ha,
                hdry, hu, hr]

/-- Witness for C5: `gt-004` is pinned with the finished molecule `mol-1` and
`gt-005` is requested. -/
theorem single_occupancy_witness :
    (Store.run oneOccupantStore
      (runHook ((sampleWorld [] (some ⟨"mol-1"⟩) (some ⟨true⟩, none)).onStore oneOccupantStore)
        (plainFlags false false) "gt-005").trace).pinnedTo "gastown/crew/max" = 1 :=
  single_occupancy (sampleWorld [] (some ⟨"mol-1"⟩) (some ⟨true⟩, none)) oneOccupantStore
    (plainFlags false false) "gt-005" "gastown/crew/max" rfl (by decide) (by decide) rfl
    (by decide)

/-- C6 (Auto-replace of a completed molecule bead): when the first pinned
entry has another ID than the requested one and is classified complete with an
attachment, dry-run is off and the store accepts every call, `runHook` returns
success after issuing exactly the forced close of the existing bead, with the
reason that records the auto-replacement of a complete molecule, and then the
pin of the requested bead with status pinned and the agent as assignee; the
force flag is left arbitrary. -/
theorem auto_replace_closes_molecule_bead (w : World) (fl : Flags)
    (beadID agentID workDir : String) (existing : Issue) (rest : List Issue)
    (hreach : ReachesList w beadID agentID workDir (existing :: rest))
    (hne : existing.ID ≠ beadID)
    (hcls : checkPinnedBeadComplete w (Beads.New workDir) existing = (true, true))
    (hdry : fl.hookDryRun = false)
    (hacc : StoreAccepts w) :
    (runHook w fl beadID).err = none ∧
    (runHook w fl beadID).trace =
      [Call.bdClose existing.ID "Auto-replaced by gt hook (molecule complete)",
       Call.bdUpdate beadID "pinned" agentID] ∧
    (runHook w fl beadID).trace.map Call.argv =
      [["bd", "close", existing.ID, "--force",
        "--reason=Auto-replaced by gt hook (molecule complete)"],
       ["bd", "update", beadID, "--status=pinned", "--assignee=" ++ agentID]] := by
  obtain ⟨hpol, hver, hid, hdir, hlist⟩ := hreach
  simp [runHook, runHookPin, hpol, hver, hid, hdir, hlist, hne, hcls, hdry, hacc.1,
    Call.argv]

/-- Witness for C6: `gt-004` is pinned with the finished molecule `mol-1`, and
`gt-005` is requested. -/
theorem auto_replace_closes_molecule_bead_witness :
    (runHook (sampleWorld [pinnedBead "gt-004" "Ship it"] (some ⟨"mol-1"⟩)
        (some ⟨true⟩, none)) (plainFlags false false) "gt-005").trace =
      [Call.bdClose "gt-004" "Auto-replaced by gt hook (molecule complete)",
       Call.bdUpdate "gt-005" "pinned" "gastown/crew/max"] :=
  (auto_replace_closes_molecule_bead
    (sampleWorld [pinnedBead "gt-004" "Ship it"] (some ⟨"mol-1"⟩) (some ⟨true⟩, none))
    (plainFlags false false) "gt-005" "gastown/crew/max" "/work/.beads"
    (pinnedBead "gt-004" "Ship it") [] ⟨rfl, rfl, rfl, rfl, rfl⟩ (by decide) (by decide) rfl
    ⟨fun _ => rfl, fun _ _ _ => rfl⟩).2.1

/-- C7 (Auto-replace of a naked bead): when the first pinned entry has another
ID than the requested one and is classified complete without an attachment,
`runHook` never issues a close call; with dry-run off and a store that accepts
every call it returns success after issuing exactly the update of the existing
bead to status open and then the pin of the requested bead with status pinned
and the agent as assignee. -/
theorem auto_replace_unpins_naked_bead (w : World) (fl : Flags)
    (beadID agentID workDir : String) (existing : Issue) (rest : List Issue)
    (hreach : ReachesList w beadID agentID workDir (existing :: rest))
    (hne : existing.ID ≠ beadID)
    (hcls : checkPinnedBeadComplete w (Beads.New workDir) existing = (true, false)) :
    (∀ id reason, Call.bdClose id reason ∉ (runHook w fl beadID).trace) ∧
    (fl.hookDryRun = false → StoreAccepts w →
      (runHook w fl beadID).err = none ∧
      (runHook w fl beadID).trace =
        [Call.bUpdate existing.ID { Status := some "open" },
         Call.bdUpdate beadID "pinned" agentID]) := by
  obtain ⟨hpol, hver, hid, hdir, hlist⟩ := hreach
  refine ⟨fun id reason => ?_, fun hdry hacc => ?_⟩
  · cases hd : fl.hookDryRun
    · cases hu : w.Update (Beads.New workDir) existing.ID { Status := some "open" } with
      | some cause =>
        simp [runHook, hpol, hver, hid, hdir, hlist, hne, hcls, hd, hu]
      | none =>
        cases hr : w.Run (Call.bdUpdate beadID "pinned" agentID).argv <;>
        simp [runHook, runHookPin, hpol, hver, hid, hdir, hlist, hne, hcls, hd, hu, hr]
    · simp [runHook, runHookPin, hpol, hver, hid, hdir, hlist, hne, hcls, hd]
  · simp [runHook, runHookPin, hpol, hver, hid, hdir, hlist, hne, hcls, hdry, hacc.1,
      hacc.2]

/-- Witness for C7: the naked bead `gt-002` is pinned and `gt-003` is
requested. -/
theorem auto_replace_unpins_naked_bead_witness :
    (runHook (sampleWorld [pinnedBead "gt-002" "Tidy docs"] none (none, none))
        (plainFlags false false) "gt-003").err = none ∧
    (runHook (sampleWorld [pinnedBead "gt-002" "Tidy docs"] none (none, none))
        (plainFlags false false) "gt-003").trace =
      [Call.bUpdate "gt-002" { Status := some "open" },
       Call.bdUpdate "gt-003" "pinned" "gastown/crew/max"] :=
  (auto_replace_unpins_naked_bead
    (sampleWorld [pinnedBead "gt-002" "Tidy docs"] none (none, none))
    (plainFlags false false) "gt-003" "gastown/crew/max" "/work/.beads"
    (pinnedBead "gt-002" "Tidy docs") [] ⟨rfl, rfl, rfl, rfl, rfl⟩ (by decide) rfl).2 rfl
    ⟨fun _ => rfl, fun _ _ _ => rfl⟩

/-- C8 (Idempotent no-op): when the first bead pinned to the agent has the
requested ID, `runHook` returns success, issues no mutation call (no close, no
update, no pin) and never calls `checkPinnedBeadComplete`; the force and
dry-run flags and the classifier oracles are left arbitrary. -/
theorem same_bead_is_noop (w : World) (fl : Flags)
    (beadID agentID workDir : String) (existing : Issue) (rest : List Issue)
    (hreach : ReachesList w beadID agentID workDir (existing :: rest))
    (hsame : existing.ID = beadID) :
    (runHook w fl beadID).err = none ∧ (runHook w fl beadID).trace = [] ∧
    ∀ b issue, Query.checkPinnedBeadComplete b issue ∉ (runHook w fl beadID).queries := by
  obtain ⟨hpol, hver, hid, hdir, hlist⟩ := hreach
  simp [runHook, hpol, hver, hid, hdir, hlist, hsame]

/-- Witness for C8: `gt-001` is pinned with an unfinished molecule and is
requested again, with force and dry-run both on. -/
theorem same_bead_is_noop_witness :
    (runHook (sampleWorld [pinnedBead "gt-001" "Fix parser"] (some ⟨"mol-2"⟩)
        (some ⟨false⟩, none)) (plainFlags true true) "gt-001").err = none ∧
    (runHook (sampleWorld [pinnedBead "gt-001" "Fix parser"] (some ⟨"mol-2"⟩)
        (some ⟨false⟩, none)) (plainFlags true true) "gt-001").trace = [] :=
  have h := same_bead_is_noop
    (sampleWorld [pinnedBead "gt-001" "Fix parser"] (some ⟨"mol-2"⟩) (some ⟨false⟩, none))
    (plainFlags true true) "gt-001" "gastown/crew/max" "/work/.beads"
    (pinnedBead "gt-001" "Fix parser") [] ⟨rfl, rfl, rfl, rfl, rfl⟩ rfl
  ⟨h.1, h.2.1⟩

/-- C9 (Dry-run makes no mutation): with the dry-run flag set, the mutation
trace of `runHook` is empty for every world, every other flag and every
requested ID: no close, no update and no pin call is issued. -/
theorem dry_run_no_mutation (w : World) (fl : Flags) (beadID : String)
    (hdry : fl.hookDryRun = true) :
    (runHook w fl beadID).trace = [] := by
  unfold runHook
  simp only [hdry]
  repeat' split
  all_goals simp_all [runHookPin_dry_trace]

/-- Witness for C9: a forced dry run against a pinned bead with an unfinished
molecule. -/
theorem dry_run_no_mutation_witness :
    (runHook (sampleWorld [pinnedBead "gt-006" "Fix parser"] (some ⟨"mol-2"⟩)
        (some ⟨false⟩, none)) (plainFlags true true) "gt-007").trace = [] :=
  dry_run_no_mutation
    (sampleWorld [pinnedBead "gt-006" "Fix parser"] (some ⟨"mol-2"⟩) (some ⟨false⟩, none))
    (plainFlags true true) "gt-007" rfl

/-- C10, counterexample: the dry-run report does not give the mutation calls
exactly.  With `gt-002` pinned and `gt-003` requested, the dry run prints the
same lines whether `gt-002` is a naked bead or carries the finished molecule
`mol-1`, while the real run sets `gt-002` back to open in the first case and
closes it in the second. -/
theorem dry_run_reports_counterexample :
    (runHook (sampleWorld [pinnedBead "gt-002" "Tidy docs"] none (none, none))
        (plainFlags true false) "gt-003").out =
      (runHook (sampleWorld [pinnedBead "gt-002" "Tidy docs"] (some ⟨"mol-1"⟩)
        (some ⟨true⟩, none)) (plainFlags true false) "gt-003").out ∧
    (runHook (sampleWorld [pinnedBead "gt-002" "Tidy docs"] none (none, none))
        (plainFlags false false) "gt-003").trace =
      [Call.bUpdate "gt-002" { Status := some "open" },
       Call.bdUpdate "gt-003" "pinned" "gastown/crew/max"] ∧
    (runHook (sampleWorld [pinnedBead "gt-002" "Tidy docs"] (some ⟨"mol-1"⟩)
        (some ⟨true⟩, none)) (plainFlags false false) "gt-003").trace =
      [Call.bdClose "gt-002" "Auto-replaced by gt hook (molecule complete)",
       Call.bdUpdate "gt-003" "pinned" "gastown/crew/max"] := by
  decide

/-- C10, amended (Dry-run reports what a real run would do): for every input,
the lines by which `runHook` with dry-run set announces its actions correspond
one to one, in order, to the mutation calls that `runHook` issues on the same
input with dry-run off when the store accepts every call: the notice that a
completed bead is replaced to the close of that bead or to its update to status
open (the notice does not say which), the notice of a forced replacement to the
update of that bead to status open, and the `Would run:` line to the pin of the
requested bead with status pinned and the agent as assignee; and the two runs
return the same error or both succeed. -/
theorem dry_run_reports (w : World) (fl : Flags) (beadID : String) (hacc : StoreAccepts w) :
    List.Forall₂ Out.Announces
      ((runHook w { fl with hookDryRun := true } beadID).out.filter Out.isAnnouncement)
      (runHook w { fl with hookDryRun := false } beadID).trace ∧
    (runHook w { fl with hookDryRun := true } beadID).err =
      (runHook w { fl with hookDryRun := false } beadID).err := by
  obtain ⟨hrun, hupd⟩ := hacc
  by_cases hpol : w.getenv "GT_POLECAT" = ""
  swap
  · simp [runHook, hpol]
  cases hver : w.verifyBeadExists beadID with
  | some err => simp [runHook, hpol, hver]
  | none =>
  cases hid : w.resolveSelfTarget with
  | error err => simp [runHook, hpol, hver, hid]
  | ok agentID =>
  cases hdir : w.findLocalBeadsDir with
  | error err => simp [runHook, hpol, hver, hid, hdir]
  | ok workDir =>
  cases hlist : w.List (Beads.New workDir)
      { Status := StatusPinned, Assignee := agentID, Priority := -1 } with
  | error err => simp [runHook, hpol, hver, hid, hdir, hlist]
  | ok existingPinned =>
  cases existingPinned with
  | nil =>
    simp [runHook, hpol, hver, hid, hdir, hlist, runHookPin_dry_err,
      runHookPin_dry_announce, runHookPin_real, hrun, Out.Announces]
  | cons existing rest =>
    by_cases hsame : existing.ID = beadID
    · simp [runHook, hpol, hver, hid, hdir, hlist, hsame, List.filter_cons,
        Out.isAnnouncement]
    · cases hc : (checkPinnedBeadComplete w (Beads.New workDir) existing).1 <;>
      cases ha : (checkPinnedBeadComplete w (Beads.New workDir) existing).2 <;>
      cases hf : fl.hookForce <;>
      simp [runHook, hpol, hver, hid, hdir, hlist, hsame, hc, ha, hf, hrun, hupd,
        runHookPin_dry_err, runHookPin_dry_announce, runHookPin_real, List.filter_cons,
        Out.isAnnouncement, Out.Announces]

/-- Witness for C10: a forced replacement of `gt-006`, reported and carried
out. -/
theorem dry_run_reports_witness :
    List.Forall₂ Out.Announces
      ((runHook (sampleWorld [pinnedBead "gt-006" "Fix parser"] (some ⟨"mol-2"⟩)
        (some ⟨false⟩, none)) { plainFlags false true with hookDryRun := true }
        "gt-007").out.filter Out.isAnnouncement)
      (runHook (sampleWorld [pinnedBead "gt-006" "Fix parser"] (some ⟨"mol-2"⟩)
        (some ⟨false⟩, none)) { plainFlags false true with hookDryRun := false }
        "gt-007").trace ∧
    (runHook (sampleWorld [pinnedBead "gt-006" "Fix parser"] (some ⟨"mol-2"⟩)
        (some ⟨false⟩, none)) { plainFlags false true with hookDryRun := true }
        "gt-007").err =
      (runHook (sampleWorld [pinnedBead "gt-006" "Fix parser"] (some ⟨"mol-2"⟩)
        (some ⟨false⟩, none)) { plainFlags false true with hookDryRun := false }
        "gt-007").err :=
  dry_run_reports
    (sampleWorld [pinnedBead "gt-006" "Fix parser"] (some ⟨"mol-2"⟩) (some ⟨false⟩, none))
    (plainFlags false true) "gt-007" ⟨fun _ => rfl, fun _ _ _ => rfl⟩

/-- C11 (Vacuous completeness): for every bead, if its parsed attachment is
absent or names an empty molecule then `checkPinnedBeadComplete` returns
(true, false), and if it names a non-empty molecule whose progress lookup
succeeds with no progress (nil progress, nil error) then it returns
(true, true); in both cases isComplete is true. -/
theorem checkPinnedBeadComplete_vacuous (w : World) (b : Beads) (issue : Issue) :
    ((w.ParseAttachmentFields issue = none ∨
        ∃ attachment, w.ParseAttachmentFields issue = some attachment ∧
          attachment.AttachedMolecule = "") →
      checkPinnedBeadComplete w b issue = (true, false)) ∧
    (∀ attachment, w.ParseAttachmentFields issue = some attachment →
      attachment.AttachedMolecule ≠ "" →
      w.getMoleculeProgressInfo b attachment.AttachedMolecule = (none, none) →
      checkPinnedBeadComplete w b issue = (true, true)) := by
  refine ⟨fun h => ?_, fun attachment hparse hmol hprog => ?_⟩
  · rcases h with h | ⟨attachment, hparse, hmol⟩
    · simp [checkPinnedBeadComplete, h]
    · simp [checkPinnedBeadComplete, hparse, hmol]
  · simp [checkPinnedBeadComplete, hparse, hmol, hprog]

/-- Witness for C11: a bead with no attachment, a bead whose attachment names
no molecule, and a bead whose molecule `mol-0` has no steps. -/
theorem checkPinnedBeadComplete_vacuous_witness :
    checkPinnedBeadComplete (sampleWorld [] none (some ⟨false⟩, none))
        (Beads.New "/work/.beads") (pinnedBead "gt-002" "Tidy docs") = (true, false) ∧
    checkPinnedBeadComplete (sampleWorld [] (some ⟨""⟩) (some ⟨false⟩, none))
        (Beads.New "/work/.beads") (pinnedBead "gt-002" "Tidy docs") = (true, false) ∧
    checkPinnedBeadComplete (sampleWorld [] (some ⟨"mol-0"⟩) (none, none))
        (Beads.New "/work/.beads") (pinnedBead "gt-002" "Tidy docs") = (true, true) :=
  ⟨(checkPinnedBeadComplete_vacuous (sampleWorld [] none (some ⟨false⟩, none))
      (Beads.New "/work/.beads") (pinnedBead "gt-002" "Tidy docs")).1 (Or.inl rfl),
   (checkPinnedBeadComplete_vacuous (sampleWorld [] (some ⟨""⟩) (some ⟨false⟩, none))
      (Beads.New "/work/.beads") (pinnedBead "gt-002" "Tidy docs")).1
      (Or.inr ⟨⟨""⟩, rfl, rfl⟩),
   (checkPinnedBeadComplete_vacuous (sampleWorld [] (some ⟨"mol-0"⟩) (none, none))
      (Beads.New "/work/.beads") (pinnedBead "gt-002" "Tidy docs")).2 ⟨"mol-0"⟩ rfl
      (by decide) rfl⟩

/-- C12 (Completeness mirrors progress): for every bead whose attachment names
a non-empty molecule and whose progress lookup succeeds with a progress record
`p`, `checkPinnedBeadComplete` returns (p.Complete, true); and for every bead
hasAttachment is true exactly when the attachment is present with a non-empty
molecule reference. -/
theorem checkPinnedBeadComplete_mirrors_progress (w : World) (b : Beads) (issue : Issue) :
    (∀ attachment p, w.ParseAttachmentFields issue = some attachment →
      attachment.AttachedMolecule ≠ "" →
      w.getMoleculeProgressInfo b attachment.AttachedMolecule = (some p, none) →
      checkPinnedBeadComplete w b issue = (p.Complete, true)) ∧
    ((checkPinnedBeadComplete w b issue).2 = true ↔
      ∃ attachment, w.ParseAttachmentFields issue = some attachment ∧
        attachment.AttachedMolecule ≠ "") := by
  refine ⟨fun attachment p hparse hmol hprog => ?_, ?_⟩
  · simp [checkPinnedBeadComplete, hparse, hmol, hprog]
  · cases hparse : w.ParseAttachmentFields issue with
    | none => simp [checkPinnedBeadComplete, hparse]
    | some attachment =>
      by_cases hmol : attachment.AttachedMolecule = ""
      · simp [checkPinnedBeadComplete, hparse, hmol]
      · simp only [checkPinnedBeadComplete, hparse, hmol, if_false]
        split <;> simp [hmol]

/-- Witness for C12: the molecule `mol-2` reports progress that is not
complete. -/
theorem checkPinnedBeadComplete_mirrors_progress_witness :
    checkPinnedBeadComplete (sampleWorld [] (some ⟨"mol-2"⟩) (some ⟨false⟩, none))
      (Beads.New "/work/.beads") (pinnedBead "gt-006" "Fix parser") = (false, true) :=
  (checkPinnedBeadComplete_mirrors_progress
    (sampleWorld [] (some ⟨"mol-2"⟩) (some ⟨false⟩, none)) (Beads.New "/work/.beads")
    (pinnedBead "gt-006" "Fix parser")).1 ⟨"mol-2"⟩ ⟨false⟩ rfl (by decide) rfl

/-- C13 (Proceed): when no bead is pinned to the agent, dry-run is off and the
pin call succeeds, `runHook` returns success and its mutation trace is exactly
one call, the pin of the requested bead with status pinned and the agent as
assignee; the force flag is left arbitrary. -/
theorem proceed_pins_once (w : World) (fl : Flags) (beadID agentID workDir : String)
    (hreach : ReachesList w beadID agentID workDir [])
    (hdry : fl.hookDryRun = false)
    (hpin : w.Run (Call.bdUpdate beadID "pinned" agentID).argv = none) :
    (runHook w fl beadID).err = none ∧
    (runHook w fl beadID).trace = [Call.bdUpdate beadID "pinned" agentID] ∧
    (runHook w fl beadID).trace.map Call.argv =
      [["bd", "update", beadID, "--status=pinned", "--assignee=" ++ agentID]] := by
  obtain ⟨hpol, hver, hid, hdir, hlist⟩ := hreach
  simp [Call.argv] at hpin
  simp [runHook, runHookPin, hpol, hver, hid, hdir, hlist, hdry, hpin, Call.argv]

/-- Witness for C13: nothing is pinned and `gt-001` is requested, with
force. -/
theorem proceed_pins_once_witness :
    (runHook (sampleWorld [] none (none, none)) (plainFlags false true) "gt-001").err = none ∧
    (runHook (sampleWorld [] none (none, none)) (plainFlags false true) "gt-001").trace =
      [Call.bdUpdate "gt-001" "pinned" "gastown/crew/max"] :=
  have h := proceed_pins_once (sampleWorld [] none (none, none)) (plainFlags false true)
    "gt-001" "gastown/crew/max" "/work/.beads" ⟨rfl, rfl, rfl, rfl, rfl⟩ rfl rfl
  ⟨h.1, h.2.1⟩

/-- C14 (Agent-class gate): if the value of `GT_POLECAT` is non-empty then
`runHook` returns the polecat error at once: no existence check, no identity
resolution, no list query or other read call, no mutation call and no output.
If it is empty the gate does not reject: the run goes on to the existence
check of the requested bead. -/
theorem polecat_gate (w : World) (fl : Flags) (beadID : String) :
    (w.getenv "GT_POLECAT" ≠ "" →
      runHook w fl beadID =
        { err := some (.errorf "polecats cannot hook work (use gt done for handoff)"),
          queries := [], trace := [], out := [] }) ∧
    (w.getenv "GT_POLECAT" = "" →
      (runHook w fl beadID).queries.head? = some (Query.verifyBeadExists beadID)) := by
  refine ⟨fun h => ?_, fun h => ?_⟩
  · simp [runHook, h]
  · simp only [runHook, h]
    repeat' split
    all_goals simp_all [runHookPin_queries]

/-- Witness for C14: the polecat `nux` is turned away before any call, and the
sample agent, who is no polecat, gets to the existence check. -/
theorem polecat_gate_witness :
    runHook polecatWorld (plainFlags false true) "gt-001" =
      { err := some (.errorf "polecats cannot hook work (use gt done for handoff)"),
        queries := [], trace := [], out := [] } ∧
    (runHook (sampleWorld [] none (none, none)) (plainFlags false true)
      "gt-001").queries.head? = some (Query.verifyBeadExists "gt-001") :=
  ⟨(polecat_gate polecatWorld (plainFlags false true) "gt-001").1 (by decide),
   (polecat_gate (sampleWorld [] none (none, none)) (plainFlags false true) "gt-001").2 rfl⟩

/-- C15, counterexample: no anomaly is flagged.  With `gt-001` and `gt-002`
both pinned to the agent and `gt-003` requested, `runHook` returns, calls and
prints exactly what it does when `gt-001` alone is pinned. -/
theorem anomaly_flagging_counterexample :
    runHook (sampleWorld [pinnedBead "gt-001" "Fix parser", pinnedBead "gt-002" "Tidy docs"]
        none (none, none)) (plainFlags false false) "gt-003" =
      runHook (sampleWorld [pinnedBead "gt-001" "Fix parser"] none (none, none))
        (plainFlags false false) "gt-003" := by
  decide

/-- C15, amended (No anomaly flagging): for every run of `runHook` in which the
list of beads pinned to the agent has more than one entry, the run takes the
first entry and neither logs nor flags the anomaly: its output and its result
are those of the same run on the list cut down to its first entry. -/
theorem anomaly_not_flagged (w : World) (fl : Flags) (beadID agentID workDir : String)
    (first second : Issue) (rest : List Issue)
    (hreach : ReachesList w beadID agentID workDir (first :: second :: rest)) :
    ReachesList w.firstOnly beadID agentID workDir [first] ∧
    (runHook w fl beadID).out = (runHook w.firstOnly fl beadID).out ∧
    (runHook w fl beadID).out.map (Out.text w) =
      (runHook w.firstOnly fl beadID).out.map (Out.text w.firstOnly) ∧
    (runHook w fl beadID).err = (runHook w.firstOnly fl beadID).err := by
  refine ⟨reachesList_firstOnly hreach, ?_, ?_, ?_⟩
  · rw [runHook_firstOnly]
  · rw [runHook_firstOnly]
    rfl
  · rw [runHook_firstOnly]

/-- Witness for C15: `gt-001` and `gt-002` are both pinned and `gt-003` is
requested. -/
theorem anomaly_not_flagged_witness :
    (runHook (sampleWorld [pinnedBead "gt-001" "Fix parser", pinnedBead "gt-002" "Tidy docs"]
        none (none, none)) (plainFlags false false) "gt-003").out =
      (runHook (sampleWorld [pinnedBead "gt-001" "Fix parser",
        pinnedBead "gt-002" "Tidy docs"] none (none, none)).firstOnly
        (plainFlags false false) "gt-003").out :=
  (anomaly_not_flagged
    (sampleWorld [pinnedBead "gt-001" "Fix parser", pinnedBead "gt-002" "Tidy docs"]
      none (none, none))
    (plainFlags false false) "gt-003" "gastown/crew/max" "/work/.beads"
    (pinnedBead "gt-001" "Fix parser") (pinnedBead "gt-002" "Tidy docs") []
    ⟨rfl, rfl, rfl, rfl, rfl⟩).2.1

/-- C16 (Never two occupants mid-sequence): starting from a store with unique
bead IDs in which at most one bead is pinned to the agent, for every input and
every prefix of the mutation trace of `runHook` (a crash after any step), at
most one bead is pinned to the agent after that prefix is applied; and nothing
follows a pin in the trace, so the clearing call on the existing bead always
comes before the pin of the requested bead. -/
theorem never_two_occupants (base : World) (st : Store) (fl : Flags)
    (beadID agentID : String)
    (hid : base.resolveSelfTarget = .ok agentID)
    (hnodup : (st.map fun i => i.ID).Nodup)
    (hone : st.pinnedTo agentID ≤ 1) :
    (∀ p, p <+: (runHook (base.onStore st) fl beadID).trace →
      (Store.run st p).pinnedTo agentID ≤ 1) ∧
    (∀ pre post c, (runHook (base.onStore st) fl beadID).trace = pre ++ c :: post →
      c.isPin = true → post = [] ∧ ∀ d ∈ pre, d.isPin = false) := by
  have hid1 : (base.onStore st).resolveSelfTarget = .ok agentID := hid
  rcases runHook_trace_cases (base.onStore st) fl beadID with
    htr | ⟨a, workDir, hreach, htr⟩ | ⟨a, workDir, e, rest, c, hreach, hne, hc, htr⟩
  · rw [htr]
    refine ⟨fun p hp => ?_, fun pre post c h => ?_⟩
    · rw [List.prefix_nil.1 hp]
      exact hone
    · simp at h
  · obtain ⟨-, hver, hida, -, hlist⟩ := hreach
    have haa : a = agentID := by
      rw [hid1] at hida
      exact (Except.ok.inj hida).symm
    subst haa
    have hmem : beadID ∈ st.map fun i => i.ID := by
      simp only [World.onStore] at hver
      by_contra hcon
      rw [if_neg hcon] at hver
      cases hver
    have hl : st.list { Status := StatusPinned, Assignee := a, Priority := -1 } = [] :=
      Except.ok.inj hlist
    rw [htr]
    refine ⟨fun p hp => ?_, fun pre post c h hpin => ?_⟩
    · rcases prefix_single hp with rfl | rfl
      · exact hone
      · simp only [Store.run, List.foldl]
        exact le_of_eq (pinnedTo_apply_pin st beadID a hnodup hmem
          (fun i hi hs ha => (list_none st _ hl i hi hs ha).elim))
    · match pre, h with
      | [], h =>
        simp only [List.nil_append, List.cons.injEq] at h
        exact ⟨h.2.symm, fun d hd => by simp at hd⟩
      | x :: t, h =>
        have := congrArg List.length h
        simp at this
  · obtain ⟨-, hver, hida, -, hlist⟩ := hreach
    have haa : a = agentID := by
      rw [hid1] at hida
      exact (Except.ok.inj hida).symm
    subst haa
    have hmem : beadID ∈ st.map fun i => i.ID := by
      simp only [World.onStore] at hver
      by_contra hcon
      rw [if_neg hcon] at hver
      cases hver
    have hl : st.list { Status := StatusPinned, Assignee := a, Priority := -1 } = e :: rest :=
      Except.ok.inj hlist
    have hrest : rest = [] := by
      have : (e :: rest).length ≤ 1 := by rw [← hl]; exact hone
      cases rest with
      | nil => rfl
      | cons _ _ => simp at this
    subst hrest
    have hsole := list_sole st _ e hl
    have hclears : c.Clears e.ID := by
      rcases hc with rfl | rfl
      · exact rfl
      · exact ⟨rfl, "open", rfl, by decide⟩
    have hcpin : c.isPin = false := by
      rcases hc with rfl | rfl <;> rfl
    have h0 : (Store.run st [c]).pinnedTo a ≤ 1 := by
      simp only [Store.run, List.foldl]
      rw [pinnedTo_apply_clear st c e a hclears hsole]
      exact Nat.zero_le 1
    have h1 : (Store.run st [c, Call.bdUpdate beadID "pinned" a]).pinnedTo a ≤ 1 :=
      le_of_eq (pinnedTo_clear_then_pin st c e beadID a hnodup hmem hclears hsole)
    rcases htr with htr | htr
    · rw [htr]
      refine ⟨fun p hp => ?_, fun pre post x h hpin => ?_⟩
      · rcases prefix_single hp with rfl | rfl
        · exact hone
        · exact h0
      · match pre, h with
        | [], h =>
          simp only [List.nil_append, List.cons.injEq] at h
          rw [← h.1, hcpin] at hpin
          cases hpin
        | y :: t, h =>
          have := congrArg List.length h
          simp at this
    · rw [htr]
      refine ⟨fun p hp => ?_, fun pre post x h hpin => ?_⟩
      · rcases prefix_pair hp with rfl | rfl | rfl
        · exact hone
        · exact h0
        · exact h1
      · match pre, h with
        | [], h =>
          simp only [List.nil_append, List.cons.injEq] at h
          rw [← h.1, hcpin] at hpin
          cases hpin
        | [y], h =>
          simp only [List.singleton_append, List.cons.injEq] at h
          refine ⟨h.2.2.symm, fun d hd => ?_⟩
          simp only [List.mem_singleton] at hd
          rw [hd, ← h.1]
          exact hcpin
        | y :: z :: t, h =>
          have := congrArg List.length h
          simp at this

/-- Witness for C16: `gt-004` is pinned with the finished molecule `mol-1` and
`gt-005` is requested; after the close alone nothing is pinned. -/
theorem never_two_occupants_witness :
    (Store.run oneOccupantStore
      [Call.bdClose "gt-004" "Auto-replaced by gt hook (molecule complete)"]).pinnedTo
      "gastown/crew/max" ≤ 1 :=
  (never_two_occupants (sampleWorld [] (some ⟨"mol-1"⟩) (some ⟨true⟩, none)) oneOccupantStore
    (plainFlags false false) "gt-005" "gastown/crew/max" rfl (by decide) (by decide)).1
    [Call.bdClose "gt-004" "Auto-replaced by gt hook (molecule complete)"]
    (by decide)


/-- C17 (First entry decides): for every non-empty list of beads pinned to the
agent, the result and the mutation trace of `runHook` are those of the same
run on the one-element list that holds only the first entry: the other entries
change neither the decision nor the beads that are mutated. -/
theorem first_entry_decides (w : World) (fl : Flags) (beadID agentID workDir : String)
    (existing : Issue) (rest : List Issue)
    (hreach : ReachesList w beadID agentID workDir (existing :: rest)) :
    ReachesList w.firstOnly beadID agentID workDir [existing] ∧
    (runHook w fl beadID).err = (runHook w.firstOnly fl beadID).err ∧
    (runHook w fl beadID).trace = (runHook w.firstOnly fl beadID).trace := by
  refine ⟨reachesList_firstOnly hreach, ?_, ?_⟩ <;> rw [runHook_firstOnly]

/-- Witness for C17: `gt-004`, with a finished molecule, is pinned ahead of
`gt-006`, and `gt-005` is requested. -/
theorem first_entry_decides_witness :
    (runHook (sampleWorld [pinnedBead "gt-004" "Ship it", pinnedBead "gt-006" "Fix parser"]
        (some ⟨"mol-1"⟩) (some ⟨true⟩, none)) (plainFlags false false) "gt-005").trace =
      (runHook (sampleWorld [pinnedBead "gt-004" "Ship it", pinnedBead "gt-006" "Fix parser"]
        (some ⟨"mol-1"⟩) (some ⟨true⟩, none)).firstOnly (plainFlags false false)
        "gt-005").trace :=
  (first_entry_decides
    (sampleWorld [pinnedBead "gt-004" "Ship it", pinnedBead "gt-006" "Fix parser"]
      (some ⟨"mol-1"⟩) (some ⟨true⟩, none))
    (plainFlags false false) "gt-005" "gastown/crew/max" "/work/.beads"
    (pinnedBead "gt-004" "Ship it") [pinnedBead "gt-006" "Fix parser"]
    ⟨rfl, rfl, rfl, rfl, rfl⟩).2.2

/-- C18 (Incomplete implies attached): for every bead and every outcome of the
progress lookup, `checkPinnedBeadComplete` never returns (false, false):
whenever isComplete is false, hasAttachment is true.  So when the first pinned
entry has no attachment, `runHook` never returns a conflict error. -/
theorem incomplete_implies_attached (w : World) (b : Beads) (issue : Issue) :
    checkPinnedBeadComplete w b issue ≠ (false, false) ∧
    ((checkPinnedBeadComplete w b issue).1 = false →
      (checkPinnedBeadComplete w b issue).2 = true) ∧
    (∀ fl beadID agentID rest, ReachesList w beadID agentID b.workDir (issue :: rest) →
      (checkPinnedBeadComplete w b issue).2 = false →
      ∀ i, (runHook w fl beadID).err ≠ some (conflictError i)) := by
  have key : (checkPinnedBeadComplete w b issue).1 = false →
      (checkPinnedBeadComplete w b issue).2 = true := by
    unfold checkPinnedBeadComplete
    repeat' split
    all_goals simp
  refine ⟨fun h => ?_, key, fun fl beadID agentID rest hreach hatt i => ?_⟩
  · have := key (by rw [h])
    rw [h] at this
    cases this
  · obtain ⟨hpol, hver, hid, hdir, hlist⟩ := hreach
    have hb : Beads.New b.workDir = b := rfl
    rw [hb] at hlist
    have hcomp : (checkPinnedBeadComplete w b issue).1 = true := by
      cases h : (checkPinnedBeadComplete w b issue).1
      · rw [key h] at hatt
        cases hatt
      · rfl
    by_cases hsame : issue.ID = beadID
    · simp [runHook, hpol, hver, hid, hdir, hb, hlist, hsame]
    · cases hd : fl.hookDryRun
      · cases hu : w.Update b issue.ID { Status := some "open" } with
        | some cause =>
          simp [runHook, hpol, hver, hid, hdir, hb, hlist, hsame, hcomp, hatt, hd, hu,
            conflictError]
        | none =>
          cases hr : w.Run (Call.bdUpdate beadID "pinned" agentID).argv <;>
          simp [runHook, runHookPin, hpol, hver, hid, hdir, hb, hlist, hsame, hcomp, hatt, hd,
            hu, hr, conflictError]
      · simp [runHook, runHookPin, hpol, hver, hid, hdir, hb, hlist, hsame, hcomp, hatt, hd]

/-- Witness for C18: the naked bead `gt-002` is pinned and `gt-003` is
requested without force; the request is not blocked. -/
theorem incomplete_implies_attached_witness :
    ∀ i, (runHook (sampleWorld [pinnedBead "gt-002" "Tidy docs"] none (none, none))
      (plainFlags false false) "gt-003").err ≠ some (conflictError i) :=
  (incomplete_implies_attached (sampleWorld [pinnedBead "gt-002" "Tidy docs"] none (none, none))
    (Beads.New "/work/.beads") (pinnedBead "gt-002" "Tidy docs")).2.2
    (plainFlags false false) "gt-003" "gastown/crew/max" [] ⟨rfl, rfl, rfl, rfl, rfl⟩ rfl

/-- C19 (Force only changes blocked outcomes): for every input on which
`runHook` with force off does not return a conflict error, `runHook` with force
on returns, calls and prints the same; in particular, with dry-run off, a first
pinned entry that is complete with an attachment is still closed under
force. -/
theorem force_only_changes_blocked (w : World) (fl : Flags) (beadID : String)
    (hfree : ∀ i, (runHook w { fl with hookForce := false } beadID).err ≠
      some (conflictError i)) :
    runHook w { fl with hookForce := true } beadID =
      runHook w { fl with hookForce := false } beadID ∧
    (∀ agentID workDir existing rest,
      ReachesList w beadID agentID workDir (existing :: rest) → existing.ID ≠ beadID →
      checkPinnedBeadComplete w (Beads.New workDir) existing = (true, true) →
      fl.hookDryRun = false →
      (runHook w { fl with hookForce := true } beadID).trace.head? =
        some (Call.bdClose existing.ID "Auto-replaced by gt hook (molecule complete)")) := by
  constructor
  · by_cases hpol : w.getenv "GT_POLECAT" = ""
    swap
    · simp [runHook, hpol]
    cases hver : w.verifyBeadExists beadID with
    | some err => simp [runHook, hpol, hver]
    | none =>
    cases hid : w.resolveSelfTarget with
    | error err => simp [runHook, hpol, hver, hid]
    | ok agentID =>
    cases hdir : w.findLocalBeadsDir with
    | error err => simp [runHook, hpol, hver, hid, hdir]
    | ok workDir =>
    cases hlist : w.List (Beads.New workDir)
        { Status := StatusPinned, Assignee := agentID, Priority := -1 } with
    | error err => simp [runHook, hpol, hver, hid, hdir, hlist]
    | ok existingPinned =>
    cases existingPinned with
    | nil => simp [runHook, runHookPin, hpol, hver, hid, hdir, hlist]
    | cons existing rest =>
      by_cases hsame : existing.ID = beadID
      · simp [runHook, hpol, hver, hid, hdir, hlist, hsame]
      · cases hc : (checkPinnedBeadComplete w (Beads.New workDir) existing).1
        · exact absurd (by simp [runHook, hpol, hver, hid, hdir, hlist, hsame, hc])
            (hfree existing)
        · simp [runHook, runHookPin, hpol, hver, hid, hdir, hlist, hsame, hc]
  · intro agentID workDir existing rest hreach hne hcls hdry
    obtain ⟨hpol, hver, hid, hdir, hlist⟩ := hreach
    cases hu : w.Run
        (Call.bdClose existing.ID "Auto-replaced by gt hook (molecule complete)").argv with
    | some cause => simp [runHook, hpol, hver, hid, hdir, hlist, hne, hcls, hdry, hu]
    | none =>
      cases hr : w.Run (Call.bdUpdate beadID "pinned" agentID).argv <;>
      simp [runHook, runHookPin, hpol, hver, hid, hdir, hlist, hne, hcls, hdry, hu, hr]

/-- Witness for C19: `gt-004` is pinned with the finished molecule `mol-1` and
`gt-005` is requested; with force it is closed all the same. -/
theorem force_only_changes_blocked_witness :
    runHook (sampleWorld [pinnedBead "gt-004" "Ship it"] (some ⟨"mol-1"⟩) (some ⟨true⟩, none))
        { plainFlags false false with hookForce := true } "gt-005" =
      runHook (sampleWorld [pinnedBead "gt-004" "Ship it"] (some ⟨"mol-1"⟩)
        (some ⟨true⟩, none)) { plainFlags false false with hookForce := false } "gt-005" :=
  (force_only_changes_blocked
    (sampleWorld [pinnedBead "gt-004" "Ship it"] (some ⟨"mol-1"⟩) (some ⟨true⟩, none))
    (plainFlags false false) "gt-005"
    (fun i => by
      have h : (runHook
          (sampleWorld [pinnedBead "gt-004" "Ship it"] (some ⟨"mol-1"⟩) (some ⟨true⟩, none))
          { plainFlags false false with hookForce := false } "gt-005").err = none := by
        decide
      rw [h]
      simp)).1

/-- C20 (Mutation frame): for every input, the mutation trace of `runHook` has
at most two calls, at most one of them a pin; every call in it is either the
close or the update to status open of the first bead of the pinned list, or
the pin of the requested bead with status pinned and the resolved agent as
assignee; so no other bead is the target of a mutation call. -/
theorem mutation_frame (w : World) (fl : Flags) (beadID : String) :
    (runHook w fl beadID).trace.length ≤ 2 ∧
    ((runHook w fl beadID).trace.filter Call.isPin).length ≤ 1 ∧
    ∀ c ∈ (runHook w fl beadID).trace,
      (∃ agentID workDir existing rest,
        ReachesList w beadID agentID workDir (existing :: rest) ∧
        (c = Call.bdClose existing.ID "Auto-replaced by gt hook (molecule complete)" ∨
          c = Call.bUpdate existing.ID { Status := some "open" })) ∨
      (∃ agentID, w.resolveSelfTarget = .ok agentID ∧
        c = Call.bdUpdate beadID "pinned" agentID) := by
  rcases runHook_trace_cases w fl beadID with
    htr | ⟨a, workDir, hreach, htr⟩ | ⟨a, workDir, e, rest, c, hreach, hne, hc, htr⟩
  · rw [htr]
    simp
  · rw [htr]
    refine ⟨by simp, by simp [Call.isPin], fun c hc => Or.inr ⟨a, hreach.2.2.1, ?_⟩⟩
    simpa using hc
  · have hcpin : c.isPin = false := by
      rcases hc with rfl | rfl <;> rfl
    rcases htr with htr | htr <;> rw [htr]
    · refine ⟨by simp, List.length_filter_le _ _, fun d hd => Or.inl ?_⟩
      simp only [List.mem_singleton] at hd
      subst hd
      exact ⟨a, workDir, e, rest, hreach, hc⟩
    · refine ⟨by simp, ?_, fun d hd => ?_⟩
      · rw [List.filter_cons_of_neg (by simp [hcpin])]
        exact List.length_filter_le _ _
      simp only [List.mem_cons, List.mem_singleton, List.not_mem_nil, or_false] at hd
      rcases hd with rfl | rfl
      · exact Or.inl ⟨a, workDir, e, rest, hreach, hc⟩
      · exact Or.inr ⟨a, hreach.2.2.1, rfl⟩

/-- Witness for C20: a forced replacement of `gt-006` by `gt-007` issues two
calls, one of them a pin. -/
theorem mutation_frame_witness :
    (runHook (sampleWorld [pinnedBead "gt-006" "Fix parser"] (some ⟨"mol-2"⟩)
        (some ⟨false⟩, none)) (plainFlags false true) "gt-007").trace.length ≤ 2 ∧
    ((runHook (sampleWorld [pinnedBead "gt-006" "Fix parser"] (some ⟨"mol-2"⟩)
        (some ⟨false⟩, none)) (plainFlags false true) "gt-007").trace.filter
      Call.isPin).length ≤ 1 :=
  have h := mutation_frame
    (sampleWorld [pinnedBead "gt-006" "Fix parser"] (some ⟨"mol-2"⟩) (some ⟨false⟩, none))
    (plainFlags false true) "gt-007"
  ⟨h.1, h.2.1⟩

end Gastown
